import Mathlib

/-!
# Verification of the chunked-audio relay core

Shallow embedding of the bidirectional speech-to-speech relay:

* the data-channel chunk assembler and echo path
  (`src/nova-sonic/api/webrtc_signaling.py`, `on_datachannel`/`on_message`,
   `src/simple-pipecat-webrtc/api/app.py`, `on_message` /
   `process_audio_with_nova_sonic`);
* the chunk-combining step of
  `src/simple-pipecat-webrtc/api/audio_utils.py`
  (`convert_audio_for_nova_sonic`);
* the `SimpleNovaSonic` session protocol of
  `src/simple-pipecat-webrtc/api/app.py` (`start_session`,
  `start_audio_input`, `send_audio_chunk`, `end_audio_input`,
  `end_session`, `_process_responses`);
* the per-message recovery structure of the WebSocket read loop of
  `src/websocket/python-server/server.py` (`websocket_handler`).

Bytes are modelled as `List Nat`; `uuid.uuid4()` is modelled as a
fresh-name supply drawn from a strictly increasing counter; base64
encoding of payloads is elided (it is a bijection on the byte strings
exchanged, and no code path inspects the encoded form).
-/

/-- A byte string. -/
abbrev Bytes := List Nat

namespace Relay

/-! ## ChunkAssembler: split, store, combine -/

/-- The outbound slicing loop of `process_audio_with_nova_sonic`:
`total_chunks = (len + chunk_size - 1) // chunk_size` and
`chunk = full_audio[i*chunk_size : min((i+1)*chunk_size, len)]`,
with `chunk_size` generalised to a parameter `m`. -/
def splitChunks (x : Bytes) (m : Nat) : List Bytes :=
  (List.range ((x.length + m - 1) / m)).map fun i => (x.drop (i * m)).take m

/-- The chunk-store step of `on_message` for a non-negative index:
`while len(audio_chunks) <= chunk_index: audio_chunks.append(None)`
followed by `audio_chunks[chunk_index] = chunk_bytes`. -/
def store_chunk (s : List (Option Bytes)) (i : Nat) (p : Bytes) :
    List (Option Bytes) :=
  (s ++ List.replicate (i + 1 - s.length) none).set i (some p)

/-- The chunk-store step of `on_message` for an arbitrary (possibly
negative) index, with Python list-indexing semantics: a negative index
addresses from the end, the pad loop is skipped (its guard
`len <= chunk_index` is false), and an out-of-range negative index
raises an uncaught `IndexError`, modelled as `none`. -/
def store_chunk_at (s : List (Option Bytes)) (i : Int) (p : Bytes) :
    Option (List (Option Bytes)) :=
  if 0 ≤ i then some (store_chunk s i.toNat p)
  else if 0 ≤ (s.length : Int) + i then
    some (s.set ((s.length : Int) + i).toNat (some p))
  else none

/-- Delivering a batch of `(index, payload)` chunks, each stored at its
declared index by the `on_message` chunk branch. -/
def deliver (l : List (Nat × Bytes)) (s : List (Option Bytes)) :
    List (Option Bytes) :=
  l.foldl (fun t c => store_chunk t c.1 c.2) s

/-- The chunk-combining loop of `convert_audio_for_nova_sonic`:
`for chunk in audio_chunks: if chunk is not None: combined_audio.extend(chunk)`. -/
def combineChunks (s : List (Option Bytes)) : Bytes :=
  (s.filterMap id).flatten

/-! ### Store lemmas -/

theorem length_store_chunk (s : List (Option Bytes)) (i : Nat) (p : Bytes) :
    (store_chunk s i p).length = max s.length (i + 1) := by
  simp only [store_chunk, List.length_set, List.length_append,
    List.length_replicate]
  omega

theorem getElem?_store_chunk (s : List (Option Bytes)) (i : Nat) (p : Bytes)
    (j : Nat) :
    (store_chunk s i p)[j]? =
      if j = i then some (some p)
      else if j < s.length then s[j]?
      else if j < max s.length (i + 1) then some none
      else none := by
  unfold store_chunk
  by_cases hji : j = i
  · subst hji
    rw [List.getElem?_set_self
      (by simp only [List.length_append, List.length_replicate]; omega)]
    simp
  · rw [List.getElem?_set_ne (fun h => hji h.symm)]
    by_cases hjs : j < s.length
    · rw [List.getElem?_append_left hjs]
      simp [hji, hjs]
    · rw [List.getElem?_append_right (by omega), List.getElem?_replicate]
      by_cases hlt : j < max s.length (i + 1)
      · rw [if_neg hji, if_neg hjs, if_pos hlt, if_pos (by omega)]
      · rw [if_neg hji, if_neg hjs, if_neg hlt, if_neg (by omega)]

theorem store_chunk_comm (s : List (Option Bytes)) (i j : Nat) (p q : Bytes)
    (hij : i ≠ j) :
    store_chunk (store_chunk s i p) j q
      = store_chunk (store_chunk s j q) i p := by
  apply List.ext_getElem?
  intro k
  simp only [getElem?_store_chunk, length_store_chunk]
  split_ifs <;> first | rfl | omega

/-! ### Delivering the chunks of a split in order -/

theorem store_chunk_snoc (acc : List Bytes) (c : Bytes) :
    store_chunk (acc.map some) acc.length c = (acc ++ [c]).map some := by
  unfold store_chunk
  have h1 : acc.length + 1 - (acc.map some).length = 1 := by simp
  rw [h1]
  rw [List.set_append_right _ _ (by simp)]
  simp

theorem deliver_enumFrom (cs : List Bytes) (acc : List Bytes) :
    deliver (cs.enumFrom acc.length) (acc.map some) = (acc ++ cs).map some := by
  induction cs generalizing acc with
  | nil => simp [deliver]
  | cons c cs ih =>
    have step : deliver ((acc.length, c) :: cs.enumFrom (acc.length + 1))
        (acc.map some)
        = deliver (cs.enumFrom (acc.length + 1))
            (store_chunk (acc.map some) acc.length c) := rfl
    rw [List.enumFrom_cons, step, store_chunk_snoc]
    have hl : acc.length + 1 = (acc ++ [c]).length := by simp
    rw [hl, ih (acc ++ [c])]
    simp

/-! ### Splitting and re-joining -/

theorem splitChunks_nil (m : Nat) (hm : 0 < m) : splitChunks [] m = [] := by
  unfold splitChunks
  rw [show ([] : Bytes).length + m - 1 = m - 1 from by simp,
    Nat.div_eq_of_lt (by omega)]
  rfl

theorem splitChunks_eq_cons (x : Bytes) (m : Nat) (hm : 0 < m) (hx : x ≠ []) :
    splitChunks x m = x.take m :: splitChunks (x.drop m) m := by
  have hn : 0 < x.length := List.length_pos.mpr hx
  unfold splitChunks
  have e1 : x.length + m - 1 = (x.length - 1) + m := by omega
  have e2 : (x.drop m).length = x.length - m := by simp
  rw [e1, Nat.add_div_right _ hm, e2]
  have e3 : (x.length - m + m - 1) / m = (x.length - 1) / m := by
    rcases le_or_lt m x.length with h | h
    · congr 1
      omega
    · rw [Nat.div_eq_of_lt (by omega), Nat.div_eq_of_lt (by omega)]
  rw [e3, List.range_succ_eq_map]
  simp only [List.map_cons, List.map_map]
  congr 1
  · simp
  · apply List.map_congr_left
    intro i _
    simp only [Function.comp_apply]
    rw [List.drop_drop]
    congr 2
    rw [Nat.succ_mul]
    exact Nat.add_comm _ _

theorem flatten_splitChunks (m : Nat) (hm : 0 < m) (x : Bytes) :
    (splitChunks x m).flatten = x := by
  have H : ∀ n (x : Bytes), x.length = n → (splitChunks x m).flatten = x := by
    intro n
    induction n using Nat.strong_induction_on with
    | _ n ih =>
      intro x hx
      by_cases hxe : x = []
      · subst hxe
        rw [splitChunks_nil m hm]
        rfl
      · have hn : 0 < x.length := List.length_pos.mpr hxe
        rw [splitChunks_eq_cons x m hm hxe, List.flatten_cons,
          ih (x.drop m).length (by simp; omega) _ rfl,
          List.take_append_drop]
  exact H x.length x rfl

theorem combineChunks_map_some (cs : List Bytes) :
    combineChunks (cs.map some) = cs.flatten := by
  unfold combineChunks
  rw [List.filterMap_map]
  simp [Function.comp]

theorem deliver_perm (l₁ l₂ : List (Nat × Bytes)) (h : l₁.Perm l₂)
    (hinj : ∀ a ∈ l₁, ∀ b ∈ l₁, a.1 = b.1 → a = b)
    (s : List (Option Bytes)) : deliver l₁ s = deliver l₂ s := by
  apply h.foldl_eq' ?_ s
  intro a ha b hb t
  by_cases hab : a.1 = b.1
  · rw [hinj a ha b hb hab]
  · exact store_chunk_comm t a.1 b.1 a.2 b.2 hab

/-- C1. Chunk round-trip: splitting a byte buffer with any positive
maximum chunk size, delivering the indexed chunks in any permutation of
arrival order (each stored at its declared index by the `on_message`
store step), and combining the stored slots in index order reconstructs
the original buffer byte-for-byte. -/
theorem chunk_roundtrip (x : Bytes) (m : Nat) (hm : 0 < m)
    (l : List (Nat × Bytes)) (hp : l.Perm (splitChunks x m).enum) :
    combineChunks (deliver l []) = x := by
  have hinj : ∀ a ∈ l, ∀ b ∈ l, a.1 = b.1 → a = b := by
    intro a ha b hb hab
    exact List.inj_on_of_nodup_map (List.nodup_enum_map_fst (splitChunks x m))
      (hp.mem_iff.mp ha) (hp.mem_iff.mp hb) hab
  rw [deliver_perm l ((splitChunks x m).enum) hp hinj]
  have h0 : (splitChunks x m).enum
      = (splitChunks x m).enumFrom (([] : List Bytes)).length := rfl
  have h1 : deliver ((splitChunks x m).enum) []
      = (splitChunks x m).map some := by
    rw [h0, show ([] : List (Option Bytes)) = (([] : List Bytes)).map some
      from rfl, deliver_enumFrom]
    simp
  rw [h1, combineChunks_map_some, flatten_splitChunks m hm]

/-- Witness for C1 at a concrete input: the 5-byte buffer `[1,2,3,4,5]`
split with `maxChunkBytes = 2` and delivered in the order 2, 0, 1. -/
theorem chunk_roundtrip_witness :
    0 < 2 ∧
    combineChunks (deliver [(2, [5]), (0, [1, 2]), (1, [3, 4])] [])
      = [1, 2, 3, 4, 5] :=
  ⟨by decide,
   chunk_roundtrip [1, 2, 3, 4, 5] 2 (by decide) _ (by decide)⟩

/-! ## SessionProtocol: the `SimpleNovaSonic` class of
`src/simple-pipecat-webrtc/api/app.py` -/

/-- Wire events sent to the remote inference service, as built by the
JSON literals of `SimpleNovaSonic`. Prompt/content names (uuid strings
in the source) are modelled as `Nat` identifiers; `topP = 0.9` and
`temperature = 0.7` are carried scaled by ten as `Nat`s. -/
inductive WireEvent
  | sessionStart (maxTokens topP10 temp10 : Nat)
  | promptStart (promptName : Nat) (sampleRateHertz : Nat) (voiceId : String)
  | contentStart (promptName contentName : Nat) (ty : String) (role : String)
  | textInput (promptName contentName : Nat) (content : String)
  | audioInput (promptName contentName : Nat) (content : Bytes)
  | contentEnd (promptName contentName : Nat)
  | promptEnd (promptName : Nat)
  | sessionEnd
  deriving DecidableEq

/-- The constructor used by a wire event, for order-of-emission claims. -/
inductive EventKind
  | sessionStartK | promptStartK | contentStartK | textInputK
  | audioInputK | contentEndK | promptEndK | sessionEndK
  deriving DecidableEq

def WireEvent.kind : WireEvent → EventKind
  | .sessionStart .. => .sessionStartK
  | .promptStart .. => .promptStartK
  | .contentStart .. => .contentStartK
  | .textInput .. => .textInputK
  | .audioInput .. => .audioInputK
  | .contentEnd .. => .contentEndK
  | .promptEnd .. => .promptEndK
  | .sessionEnd => .sessionEndK

/-- Protocol state of a `SimpleNovaSonic` instance: the `is_active`
flag and the prompt/content identifiers, plus the fresh-name counter
`nextId` modelling `uuid.uuid4()`. (The dispatcher-side fields
`role`/`display_assistant_text`/queues live in `DispState` below.) -/
structure NovaSession where
  is_active : Bool
  prompt_name : Nat
  content_name : Nat
  audio_content_name : Nat
  nextId : Nat
  max_tokens : Nat
  temp10 : Nat
  topP10 : Nat
  deriving DecidableEq

/-- `SimpleNovaSonic.__init__`: inactive, three fresh identifiers drawn
for the prompt, the system-text content and the audio content;
`max_tokens = 1024`, `temperature = 0.7`, `top_p = 0.9`. -/
def mkSession : NovaSession :=
  { is_active := false, prompt_name := 0, content_name := 1,
    audio_content_name := 2, nextId := 3,
    max_tokens := 1024, temp10 := 7, topP10 := 9 }

def systemPrompt : String :=
  "You are a friendly assistant. The user and you will engage in a spoken dialog exchanging the transcripts of a natural real-time conversation. Keep your responses short, generally two or three sentences for chatty scenarios."

/-- `SimpleNovaSonic.start_session`: opens the stream, sets `is_active`,
and sends sessionStart, promptStart, then the SYSTEM text content
(contentStart/textInput/contentEnd). There is no state-machine check:
the method never inspects `is_active` before running. -/
def start_session (s : NovaSession) : NovaSession × List WireEvent :=
  ({ s with is_active := true },
   [.sessionStart s.max_tokens s.topP10 s.temp10,
    .promptStart s.prompt_name 24000 "Lisa",
    .contentStart s.prompt_name s.content_name "TEXT" "SYSTEM",
    .textInput s.prompt_name s.content_name systemPrompt,
    .contentEnd s.prompt_name s.content_name])

/-- `SimpleNovaSonic.start_audio_input`: draws a fresh
`audio_content_name` (`uuid.uuid4()`, modelled by the `nextId` supply)
and sends the AUDIO/USER contentStart under it. -/
def start_audio_input (s : NovaSession) : NovaSession × List WireEvent :=
  ({ s with audio_content_name := s.nextId, nextId := s.nextId + 1 },
   [.contentStart s.prompt_name s.nextId "AUDIO" "USER"])

/-- `SimpleNovaSonic.send_audio_chunk`: if the session is not active it
logs a warning and returns (no event, no failure); otherwise it sends
an audioInput event under the current `audio_content_name`, whatever
its open/closed status. -/
def send_audio_chunk (s : NovaSession) (p : Bytes) :
    NovaSession × List WireEvent :=
  if s.is_active then
    (s, [.audioInput s.prompt_name s.audio_content_name p])
  else (s, [])

/-- `SimpleNovaSonic.end_audio_input`: sends contentEnd for the current
`audio_content_name`; no state change. -/
def end_audio_input (s : NovaSession) : NovaSession × List WireEvent :=
  (s, [.contentEnd s.prompt_name s.audio_content_name])

/-- `SimpleNovaSonic.end_session`: if active, sends promptEnd then
sessionEnd and clears `is_active`; otherwise logs and returns. -/
def end_session (s : NovaSession) : NovaSession × List WireEvent :=
  if s.is_active then
    ({ s with is_active := false }, [.promptEnd s.prompt_name, .sessionEnd])
  else (s, [])

/-! ### C3: what `start_session` emits -/

/-- C3 counterexample: from the initial state, `start_session` emits
five wire events, not exactly two, and a second call does not fail —
it emits the same five-event sequence again. -/
theorem start_emits_five_not_two :
    (start_session mkSession).2.length = 5 ∧
    (start_session (start_session mkSession).1).2.length = 5 := by
  exact ⟨rfl, rfl⟩

/-- C3 amended: `start_session` emits five events, in order
sessionStart, promptStart, then the SYSTEM text
contentStart/textInput/contentEnd, and sets `is_active`; it performs no
state check, so a second call re-emits the same five-kind sequence
instead of failing with `InvalidState`. -/
theorem start_session_behavior (s : NovaSession) :
    (start_session s).2.map WireEvent.kind
      = [.sessionStartK, .promptStartK, .contentStartK, .textInputK,
         .contentEndK] ∧
    (start_session s).1.is_active = true ∧
    (start_session (start_session s).1).2.map WireEvent.kind
      = [.sessionStartK, .promptStartK, .contentStartK, .textInputK,
         .contentEndK] := by
  exact ⟨rfl, rfl, rfl⟩

/-! ### C4: feeding a stream that is not open -/

/-- C4 counterexample: on an inactive session `send_audio_chunk`
silently drops the payload (no event, no failure), and after
`end_audio_input` has closed the audio content, `send_audio_chunk`
still emits the payload under that closed content identifier. -/
theorem feed_unopened_counterexample :
    send_audio_chunk mkSession [7] = (mkSession, []) ∧
    (end_audio_input (start_audio_input (start_session mkSession).1).1).2
      = [.contentEnd 0 3] ∧
    (send_audio_chunk
      (end_audio_input (start_audio_input (start_session mkSession).1).1).1
      [7]).2 = [.audioInput 0 3 [7]] := by
  exact ⟨rfl, rfl, rfl⟩

/-- C4 amended: `send_audio_chunk` never fails with a typed error.
When the session is inactive it silently drops the payload; when it is
active it emits the payload under the session's current
`audio_content_name` regardless of that stream's status — in
particular, immediately after `end_audio_input` it emits under the
identifier that has just received its contentEnd. -/
theorem feed_drop_or_misroute (s : NovaSession) (p : Bytes) :
    (s.is_active = false → send_audio_chunk s p = (s, [])) ∧
    (s.is_active = true →
      (end_audio_input s).2
          = [.contentEnd s.prompt_name s.audio_content_name] ∧
      (send_audio_chunk (end_audio_input s).1 p).2
          = [.audioInput s.prompt_name s.audio_content_name p]) := by
  constructor
  · intro h
    simp [send_audio_chunk, h]
  · intro h
    exact ⟨rfl, by simp [send_audio_chunk, end_audio_input, h]⟩

/-- Witness for C4's amended theorem at concrete sessions: the fresh
(inactive) session drops the chunk; the started session misroutes it
under the closed identifier. -/
theorem feed_drop_or_misroute_witness :
    send_audio_chunk mkSession [9] = (mkSession, []) ∧
    (send_audio_chunk (end_audio_input (start_session mkSession).1).1
        [9]).2 = [.audioInput 0 2 [9]] :=
  ⟨(feed_drop_or_misroute mkSession [9]).1 rfl,
   ((feed_drop_or_misroute (start_session mkSession).1 [9]).2 rfl).2⟩

/-! ### C5: freshness of audio content identifiers -/

/-- The audio content names produced by `n` successive calls to
`start_audio_input` from state `s`. -/
def genAudioContentNames (s : NovaSession) : Nat → List Nat
  | 0 => []
  | n + 1 =>
    (start_audio_input s).1.audio_content_name
      :: genAudioContentNames (start_audio_input s).1 n

theorem mem_genAudioContentNames_ge (n : Nat) :
    ∀ (s : NovaSession), ∀ x ∈ genAudioContentNames s n, s.nextId ≤ x := by
  induction n with
  | zero => intro s x hx; simp [genAudioContentNames] at hx
  | succ n ih =>
    intro s x hx
    simp only [genAudioContentNames, List.mem_cons] at hx
    rcases hx with h | h
    · simp only [start_audio_input] at h
      omega
    · have := ih (start_audio_input s).1 x h
      simp only [start_audio_input] at this
      omega

/-- C5. Fresh content identifiers: every invocation of
`start_audio_input` draws a new `audio_content_name` from the supply,
so two back-to-back invocations yield distinct identifiers and the
names generated across any number of invocations within one session
are pairwise distinct (never reused). -/
theorem audio_content_ids_fresh (s : NovaSession) (n : Nat) :
    (start_audio_input s).1.audio_content_name
      ≠ (start_audio_input (start_audio_input s).1).1.audio_content_name ∧
    (genAudioContentNames s n).Nodup := by
  constructor
  · simp [start_audio_input]
  · induction n generalizing s with
    | zero => simp [genAudioContentNames]
    | succ n ih =>
      refine List.nodup_cons.mpr ⟨?_, ih (start_audio_input s).1⟩
      intro hmem
      have := mem_genAudioContentNames_ge n (start_audio_input s).1 _ hmem
      simp only [start_audio_input] at this
      omega

/-! ## ResponseDispatcher: `SimpleNovaSonic._process_responses` -/

/-- Inbound events as decoded by `_process_responses`. For
`contentStart`, `genStage` models the `additionalModelFields` JSON
field: the outer `Option` is the field's presence, the inner
`Option String` is its (already parsed) `generationStage` key.
`malformed` is a response whose payload `json.loads` cannot decode. -/
inductive InEvent
  | contentStart (role : Option String) (genStage : Option (Option String))
  | textOutput (content : String)
  | audioOutput (content : Bytes)
  | completionEnd
  | otherEvent
  | malformed
  deriving DecidableEq

/-- Dispatcher-side state of `SimpleNovaSonic`: the current inbound
`role`, the `display_assistant_text` flag, the accumulated
`text_response`, the `audio_queue`, and `surfaced`, the `(role, text)`
pairs written to the log/transcript sink by the two `logger.info`
branches of the textOutput handler. -/
structure DispState where
  role : Option String
  display_assistant_text : Bool
  text_response : String
  audio_queue : List Bytes
  surfaced : List (String × String)
  deriving DecidableEq

def DispState.start : DispState :=
  { role := none, display_assistant_text := false, text_response := "",
    audio_queue := [], surfaced := [] }

/-- One iteration of the `while self.is_active` body of
`_process_responses`. `none` models an exception escaping the
iteration (`json.loads` failing on a malformed payload); the `try`
that catches it wraps the whole loop, not the iteration. -/
def process_responses_step (st : DispState) : InEvent → Option DispState
  | .malformed => none
  | .contentStart r g =>
    let st := { st with role := r }
    match g with
    | none => some st
    | some stage =>
      some { st with display_assistant_text := decide (stage = some "SPECULATIVE") }
  | .textOutput t =>
    let st := { st with text_response := st.text_response ++ t }
    if st.role = some "ASSISTANT" ∧ st.display_assistant_text = true then
      some { st with surfaced := st.surfaced ++ [("ASSISTANT", t)] }
    else if st.role = some "USER" then
      some { st with surfaced := st.surfaced ++ [("USER", t)] }
    else some st
  | .audioOutput b => some { st with audio_queue := st.audio_queue ++ [b] }
  | .completionEnd => some st
  | .otherEvent => some st

/-- The read loop of `_process_responses`: one `try` wraps the whole
loop, so an in-iteration exception ends the loop (flag `true`); the
remaining events are never processed. -/
def process_responses (st : DispState) : List InEvent → DispState × Bool
  | [] => (st, false)
  | e :: rest =>
    match process_responses_step st e with
    | none => (st, true)
    | some st' => process_responses st' rest

/-- The read loop of `websocket_handler`
(`src/websocket/python-server/server.py`): the `try`/`except
json.JSONDecodeError` sits inside the `async for`, so a malformed
message is logged and skipped and the loop continues; a `sessionEnd`
event breaks the loop. The per-event routing to the stream manager is
abstracted to recording the handled event types in arrival order. -/
def websocket_handler_loop (handled : List String) :
    List (Option String) → List String
  | [] => handled
  | none :: rest => websocket_handler_loop handled rest
  | some e :: rest =>
    if e = "sessionEnd" then handled ++ [e]
    else websocket_handler_loop (handled ++ [e]) rest

/-! ### C2: speculative generation-stage handling -/

/-- C2 counterexample: a `contentStart` carrying the SPECULATIVE
generation-stage marker followed by a `textOutput` — the dispatcher
surfaces the partial assistant text immediately, with no
non-speculative `contentStart` having arrived. -/
theorem speculative_text_surfaced_immediately :
    (process_responses .start
        [.contentStart (some "ASSISTANT") (some (some "SPECULATIVE")),
         .textOutput "hi"]).1.surfaced
      = [("ASSISTANT", "hi")] := by
  rfl

theorem process_responses_texts_display (texts : List String) :
    ∀ st : DispState, st.role = some "ASSISTANT" →
      st.display_assistant_text = true →
      (process_responses st (texts.map .textOutput)).1.surfaced
        = st.surfaced ++ texts.map fun t => ("ASSISTANT", t) := by
  induction texts with
  | nil => intro st _ _; simp [process_responses]
  | cons t ts ih =>
    intro st h1 h2
    simp only [List.map_cons, process_responses, process_responses_step,
      h1, h2, and_self, if_pos, if_true]
    rw [ih _ rfl rfl]
    simp

theorem process_responses_texts_nodisplay (texts : List String) :
    ∀ st : DispState, st.role = some "ASSISTANT" →
      st.display_assistant_text = false →
      (process_responses st (texts.map .textOutput)).1.surfaced
        = st.surfaced := by
  induction texts with
  | nil => intro st _ _; simp [process_responses]
  | cons t ts ih =>
    intro st h1 h2
    simp only [List.map_cons, process_responses, process_responses_step,
      h1, h2]
    rw [if_neg (by simp), if_neg (by simp [h1])]
    exact ih _ rfl rfl

/-- C2 amended: the dispatcher's handling is the inverse of the claim —
a SPECULATIVE generation-stage marker on an assistant `contentStart`
*enables* surfacing of the partial assistant text that follows, while a
`contentStart` whose marker is present but not SPECULATIVE disables it
(no assistant text is surfaced until a SPECULATIVE marker arrives). -/
theorem speculative_enables_display (texts : List String) (g : Option String)
    (hg : g ≠ some "SPECULATIVE") :
    (process_responses .start
        (.contentStart (some "ASSISTANT") (some (some "SPECULATIVE"))
          :: texts.map .textOutput)).1.surfaced
      = texts.map (fun t => ("ASSISTANT", t)) ∧
    (process_responses .start
        (.contentStart (some "ASSISTANT") (some g)
          :: texts.map .textOutput)).1.surfaced
      = [] := by
  constructor
  · have e : process_responses .start
        (.contentStart (some "ASSISTANT") (some (some "SPECULATIVE"))
          :: texts.map .textOutput)
        = process_responses ⟨some "ASSISTANT", true, "", [], []⟩
            (texts.map .textOutput) := rfl
    rw [e, process_responses_texts_display texts _ rfl rfl]
    simp
  · have e : process_responses .start
        (.contentStart (some "ASSISTANT") (some g) :: texts.map .textOutput)
        = process_responses
            ⟨some "ASSISTANT", decide (g = some "SPECULATIVE"), "", [], []⟩
            (texts.map .textOutput) := rfl
    have hd : decide (g = some "SPECULATIVE") = false := by
      simp [hg]
    rw [e, hd, process_responses_texts_nodisplay texts _ rfl rfl]

/-- Witness for C2's amended theorem: with marker FINAL, the text "hi"
is not surfaced; with marker SPECULATIVE it is. -/
theorem speculative_enables_display_witness :
    (process_responses .start
        [.contentStart (some "ASSISTANT") (some (some "SPECULATIVE")),
         .textOutput "hola"]).1.surfaced = [("ASSISTANT", "hola")] ∧
    (process_responses .start
        [.contentStart (some "ASSISTANT") (some (some "FINAL")),
         .textOutput "hola"]).1.surfaced = [] := by
  have h := speculative_enables_display ["hola"] (some "FINAL") (by decide)
  exact ⟨h.1, h.2⟩

/-! ### C9: resilience of the read loop to one malformed event -/

/-- C9: evaluation at the failing input. In `_process_responses` the
`try` wraps the entire read loop, so a single malformed payload aborts
the loop: the audio event after it is never processed. The sibling
WebSocket server loop, whose `try` is per message, processes both
well-formed messages around the malformed one. -/
theorem malformed_event_kills_app_loop :
    process_responses .start
        [.audioOutput [1], .malformed, .audioOutput [2]]
      = ({ DispState.start with audio_queue := [[1]] }, true) ∧
    websocket_handler_loop []
        [some "audioInput", none, some "audioInput"]
      = ["audioInput", "audioInput"] := by
  exact ⟨rfl, rfl⟩

/-! ## Data-channel framing: `on_message` of
`src/nova-sonic/api/webrtc_signaling.py` (the echo server; the
`audio-chunk` store step is shared verbatim with the `on_message` of
`src/simple-pipecat-webrtc/api/app.py`). No message handler is ever
registered through `register_message_handler` anywhere in the
repository, so the default audio branches below are the effective
behaviour. -/

/-- The `data` object of an `audio-start` message; every field is
optional and read back with `dict.get` defaults. -/
structure DCMeta where
  filename : Option String
  fileSize : Option Nat
  mimeType : Option String
  totalChunks : Option Nat
  deriving DecidableEq

def DCMeta.emptyMeta : DCMeta := ⟨none, none, none, none⟩

/-- Inbound data-channel messages. `chunkIndex` and `totalChunks` are
optional fields of the `audio-chunk` data object; `otherMsg` is a JSON
message of an unrecognized `type`; `malformed` is a non-JSON text or
binary message (both merely logged). -/
inductive DCMessage
  | audioStart (md : DCMeta)
  | audioChunk (chunkIndex : Option Int) (chunk : Bytes)
      (totalChunks : Option Nat)
  | audioEnd
  | otherMsg
  | malformed
  deriving DecidableEq

/-- Messages the handler sends back on the channel. `startEchoRaw` is
the immediate echo of the received `audio-start` metadata; the other
three form the echoed transfer after `audio-end`. -/
inductive DCOut
  | startEchoRaw (md : DCMeta)
  | startOut (filename : String) (fileSize : Nat) (mimeType : String)
      (totalChunks : Nat)
  | chunkOut (chunkIndex : Nat) (totalChunks : Nat) (chunk : Bytes)
  | endOut (filename : String)
  deriving DecidableEq

def DCOut.chunkPayload : DCOut → Option Bytes
  | .chunkOut _ _ c => some c
  | _ => none

/-- The closure state captured by `on_datachannel`: `audio_chunks`,
`audio_metadata`, `receiving_audio`. -/
structure DCState where
  audio_chunks : List (Option Bytes)
  audio_metadata : DCMeta
  receiving_audio : Bool
  deriving DecidableEq

def DCState.startState : DCState := ⟨[], .emptyMeta, false⟩

/-- The `for i, chunk in enumerate(audio_chunks): if chunk is not None`
echo loop of the `audio-end` branch, starting at index `i`. -/
def echoChunks (total : Nat) : Nat → List (Option Bytes) → List DCOut
  | _, [] => []
  | i, none :: rest => echoChunks total (i + 1) rest
  | i, some c :: rest => .chunkOut i total c :: echoChunks total (i + 1) rest

/-- One invocation of `on_message`. Result `none` models an uncaught
exception (the handler's `try` catches only `json.JSONDecodeError`, so
the `IndexError` of a negative-index store escapes). -/
def on_message (st : DCState) : DCMessage → Option (DCState × List DCOut)
  | .malformed => some (st, [])
  | .otherMsg => some (st, [])
  | .audioStart md =>
    some (⟨[], md, true⟩, [.startEchoRaw md])
  | .audioChunk ci c _tc =>
    if st.receiving_audio then
      match store_chunk_at st.audio_chunks (ci.getD (-1)) c with
      | some s' => some ({ st with audio_chunks := s' }, [])
      | none => none
    else some (st, [])
  | .audioEnd =>
    if st.receiving_audio then
      let total := st.audio_chunks.length
      let fname := st.audio_metadata.filename.getD "echo.wav"
      let fsize := ((st.audio_chunks.filterMap id).map List.length).sum
      let mime := st.audio_metadata.mimeType.getD "audio/wav"
      some (⟨[], .emptyMeta, false⟩,
        .startOut fname fsize mime total
          :: echoChunks total 0 st.audio_chunks ++ [.endOut fname])
    else some (st, [])

/-- The sequence of `on_message` invocations for a list of messages,
collecting the sent replies; `none` if any invocation raised. -/
def on_message_run (st : DCState) :
    List DCMessage → Option (DCState × List DCOut)
  | [] => some (st, [])
  | m :: rest =>
    match on_message st m with
    | none => none
    | some (st', outs) =>
      match on_message_run st' rest with
      | none => none
      | some (st'', outs') => some (st'', outs ++ outs')

/-! ### C7: chunks with no open transfer -/

/-- C7 counterexample: an `audio-chunk` message arriving when no
transfer is open (`receiving_audio` false, the state of a fresh
channel) is processed without error, without reply and without effect —
it is silently ignored, not rejected with `UnknownTransfer`. -/
theorem chunk_without_transfer_counterexample :
    on_message .startState (.audioChunk (some 0) [1, 2, 3] (some 1))
      = some (.startState, []) := by
  rfl

/-- C7 amended: a chunk delivered while no transfer is receiving is
silently ignored — the handler leaves the state unchanged, sends
nothing back, and raises no error; there is no `UnknownTransfer`
failure in the code. -/
theorem chunk_without_transfer_ignored (st : DCState) (ci : Option Int)
    (c : Bytes) (tc : Option Nat) (h : st.receiving_audio = false) :
    on_message st (.audioChunk ci c tc) = some (st, []) := by
  simp [on_message, h]

/-- Witness for C7's amended theorem on a fresh channel state. -/
theorem chunk_without_transfer_ignored_witness :
    on_message .startState (.audioChunk none [4] none)
      = some (.startState, []) :=
  chunk_without_transfer_ignored .startState none [4] none rfl

/-! ### C6: no idle-timeout reclamation -/

/-- C6 counterexample: after `audio-start` (declared total 2) and one
chunk, three unrelated/malformed messages stand in for an idle period;
the pending assembly is still there afterwards and a late second chunk
is accepted and stored rather than failing with `UnknownTransfer`. -/
theorem no_idle_reclamation_counterexample :
    on_message_run .startState
        [.audioStart ⟨none, some 8, none, some 2⟩,
         .audioChunk (some 0) [10, 11] (some 2),
         .otherMsg, .otherMsg, .malformed,
         .audioChunk (some 1) [12, 13] (some 2)]
      = some (⟨[some [10, 11], some [12, 13]], ⟨none, some 8, none, some 2⟩,
              true⟩,
          [.startEchoRaw ⟨none, some 8, none, some 2⟩]) := by
  rfl

/-- C6 amended: there is no idle timeout. A pending assembly persists
unchanged across arbitrarily many unrelated or malformed messages —
nothing reclaims it short of an `audio-end`, a new `audio-start`, or
connection teardown — and while the transfer is receiving, any chunk
with a well-formed index is accepted and stored, never rejected with
`UnknownTransfer`. -/
theorem no_idle_reclamation (st : DCState) (l : List DCMessage)
    (h : ∀ m ∈ l, m = DCMessage.otherMsg ∨ m = DCMessage.malformed)
    (i : Nat) (c : Bytes) (tc : Option Nat)
    (hr : st.receiving_audio = true) :
    on_message_run st l = some (st, []) ∧
    on_message st (.audioChunk (some (i : Int)) c tc)
      = some ({ st with audio_chunks := store_chunk st.audio_chunks i c },
          []) := by
  constructor
  · induction l with
    | nil => rfl
    | cons m rest ih =>
      have hm := h m (List.mem_cons_self m rest)
      have hrest := fun x hx => h x (List.mem_cons_of_mem m hx)
      rcases hm with hm | hm <;> subst hm <;>
        simp [on_message_run, on_message, ih hrest]
  · simp [on_message, hr, store_chunk_at]

/-- Witness for C6's amended theorem: a receiving state with one
stored chunk survives an unrelated and a malformed message, and then
accepts chunk 1. -/
theorem no_idle_reclamation_witness :
    on_message_run ⟨[some [10]], .emptyMeta, true⟩
        [DCMessage.otherMsg, DCMessage.malformed]
      = some (⟨[some [10]], .emptyMeta, true⟩, []) ∧
    on_message ⟨[some [10]], .emptyMeta, true⟩
        (.audioChunk (some (1 : Nat)) [11] none)
      = some (⟨[some [10], some [11]], .emptyMeta, true⟩, []) := by
  have h := no_idle_reclamation ⟨[some [10]], .emptyMeta, true⟩
    [DCMessage.otherMsg, DCMessage.malformed] (by decide) 1 [11] none rfl
  exact ⟨h.1, h.2⟩

/-! ### C8: finishing a transfer never checks completeness -/

/-- C8 counterexample: a transfer declared with 2 chunks receives only
chunk 1; `audio-end` nevertheless succeeds, echoing a frame built from
the single populated slot (no `IncompleteTransfer` failure), and the
assembly is discarded. -/
theorem finish_without_completion_counterexample :
    on_message_run .startState
        [.audioStart ⟨some "a.wav", none, none, some 2⟩,
         .audioChunk (some 1) [5, 6] (some 2),
         .audioEnd]
      = some (.startState,
          [.startEchoRaw ⟨some "a.wav", none, none, some 2⟩,
           .startOut "a.wav" 2 "audio/wav" 2,
           .chunkOut 1 2 [5, 6],
           .endOut "a.wav"]) := by
  rfl

theorem echoChunks_payloads (s : List (Option Bytes)) (total : Nat) :
    ∀ i, (echoChunks total i s).filterMap DCOut.chunkPayload
      = s.filterMap id := by
  induction s with
  | nil => intro i; rfl
  | cons o rest ih =>
    intro i
    cases o <;> simp [echoChunks, DCOut.chunkPayload, ih]

/-- C8 amended: the `audio-end` handler never checks completeness
against the declared total. It always echoes the populated slots in
index order, skipping missing ones (the echoed chunk payloads are
exactly `audio_chunks.filterMap id`), and discards the assembly by
resetting the state; an incomplete transfer yields a partial frame
instead of an `IncompleteTransfer` failure. -/
theorem finish_ignores_completeness (st : DCState)
    (hr : st.receiving_audio = true) :
    on_message st .audioEnd
      = some (DCState.startState,
          DCOut.startOut (st.audio_metadata.filename.getD "echo.wav")
              (((st.audio_chunks.filterMap id).map List.length).sum)
              (st.audio_metadata.mimeType.getD "audio/wav")
              st.audio_chunks.length
            :: echoChunks st.audio_chunks.length 0 st.audio_chunks
            ++ [DCOut.endOut (st.audio_metadata.filename.getD "echo.wav")]) ∧
    (echoChunks st.audio_chunks.length 0 st.audio_chunks).filterMap
        DCOut.chunkPayload
      = st.audio_chunks.filterMap id := by
  exact ⟨by simp [on_message, hr, DCState.startState],
    echoChunks_payloads _ _ 0⟩

/-- Witness for C8's amended theorem at a concrete receiving state
with a missing slot. -/
theorem finish_ignores_completeness_witness :
    on_message ⟨[none, some [5]], ⟨some "b.wav", none, none, some 2⟩, true⟩
        .audioEnd
      = some (DCState.startState,
          [DCOut.startOut "b.wav" 1 "audio/wav" 2,
           DCOut.chunkOut 1 2 [5],
           DCOut.endOut "b.wav"]) ∧
    (echoChunks 2 0 [none, some [5]]).filterMap DCOut.chunkPayload
      = [[5]] := by
  have h := finish_ignores_completeness
    ⟨[none, some [5]], ⟨some "b.wav", none, none, some 2⟩, true⟩ rfl
  exact ⟨h.1, h.2⟩

/-! ### C10: the missing-chunkIndex default -/

/-- C10. An `audio-chunk` whose data omits `chunkIndex` defaults the
index to `-1`; the pad loop is skipped and the store targets position
`-1`: with at least one slot present the highest-indexed slot is
silently overwritten (the list keeps its length), and with no slots
the handler raises an uncaught `IndexError` (modelled as `none`)
rather than returning a typed failure. -/
theorem missing_chunk_index_targets_last (st : DCState) (p : Bytes)
    (tc : Option Nat) (hr : st.receiving_audio = true) :
    (st.audio_chunks ≠ [] →
      on_message st (.audioChunk none p tc)
        = some ({ st with audio_chunks :=
            st.audio_chunks.set (st.audio_chunks.length - 1) (some p) },
            [])) ∧
    (st.audio_chunks = [] →
      on_message st (.audioChunk none p tc) = none) := by
  constructor
  · intro hne
    have hlen : 0 < st.audio_chunks.length := List.length_pos.mpr hne
    have ht : ((st.audio_chunks.length : Int) + (-1)).toNat
        = st.audio_chunks.length - 1 := by omega
    simp only [on_message, hr, if_true, Option.getD_none]
    simp only [store_chunk_at]
    rw [if_neg (by omega), if_pos (by omega), ht]
  · intro he
    simp only [on_message, hr, if_true, Option.getD_none]
    simp only [store_chunk_at]
    rw [if_neg (by omega), if_neg (by simp [he])]

/-- Witness for C10: overwrite of the last slot when one exists, and
the uncaught error on an empty slot list. -/
theorem missing_chunk_index_targets_last_witness :
    on_message ⟨[some [1]], .emptyMeta, true⟩ (.audioChunk none [9] none)
      = some (⟨[some [9]], .emptyMeta, true⟩, []) ∧
    on_message ⟨[], .emptyMeta, true⟩ (.audioChunk none [9] none)
      = none := by
  exact ⟨(missing_chunk_index_targets_last ⟨[some [1]], .emptyMeta, true⟩
      [9] none rfl).1 (by decide),
    (missing_chunk_index_targets_last ⟨[], .emptyMeta, true⟩
      [9] none rfl).2 rfl⟩

end Relay
